import Mathlib

/-!
Verification development for the DataScience_Assistant repository
(src/app.py, src/app_advanced.py, src/app_advnaved1.py).

The repository configures LLM agents into a fixed five-phase data-science
pipeline. The orchestration engine itself (orchestrator, agent loop,
artifact registry, capability interface) is described by the specification
but is not implemented under src/: the source only declares the
configuration (agent tool sets, phase order, required chart count, output
paths) through prompt strings. Definitions below are therefore of two
kinds: configuration constants transcribed from src/app_advanced.py, and
engine definitions modelled from the specification, each marked as such in
its doc comment.
-/

namespace DSAssistant

/-! ### Configuration constants transcribed from src/app_advanced.py -/

/-- The five chart output paths named in the visualization agent
instructions, src/app_advanced.py lines 243, 254, 264, 273, 283. -/
def plotPaths : List String :=
  ["plots/price_distribution.png",
   "plots/fuel_type_comparison.png",
   "plots/price_vs_km_scatter.png",
   "plots/year_boxplot.png",
   "plots/seller_type_bars.png"]

/-- The report output path named in the report agent instructions,
src/app_advanced.py line 403. -/
def reportPath : String := "reports/analysis_report_20260206.md"

/-- The chart paths the team leader lists in its final user response,
src/app_advanced.py lines 491 to 495. -/
def leaderFinalResponsePlotPaths : List String :=
  ["plots/price_distribution.png",
   "plots/fuel_type_comparison.png",
   "plots/price_vs_km_scatter.png",
   "plots/year_boxplot.png",
   "plots/seller_type_bars.png"]

/-- The report path the team leader lists in its final user response,
src/app_advanced.py line 498. -/
def leaderFinalResponseReportPath : String := "reports/analysis_report_20260206.md"

/-- Tool set of the statistical agent, src/app_advanced.py lines 212 to 215:
PandasTools and FileTools only, no VisualizationTools. -/
def statisticalAgentTools : List String := ["PandasTools", "FileTools"]

/-- Tool set of the visualization agent, src/app_advanced.py lines 306 to 310. -/
def visualizationAgentTools : List String :=
  ["PandasTools", "VisualizationTools", "FileTools"]

/-- Name of the chart-rendering capability, src/app_advanced.py line 19 and 308. -/
def chartCapability : String := "VisualizationTools"

/-- Number of chart image artifacts the visualization phase must produce,
src/app_advanced.py lines 232 and 467: exactly 5 PNG files. -/
def vizRequiredImageCount : Nat := 5

/-! ### Data model, modelled from the spec (section 3)

Modelled from the spec: the engine data model (Artifact, Result, Phase,
Registry) is described in spec section 3 but has no implementation under
src/; the source only carries it inside prompt text. -/

/-- Modelled from the spec: artifact kinds of spec section 3. -/
inductive ArtifactKind
  | dataframeHandle
  | imageFile
  | reportFile
  | metadataRecord
  deriving DecidableEq, Repr

/-- Modelled from the spec: a registered artifact with logical name, kind,
physical location, and producing phase ordinal (spec section 3). -/
structure Artifact where
  name : String
  kind : ArtifactKind
  location : String
  producingPhase : Nat
  deriving DecidableEq, Repr

/-- Modelled from the spec: an artifact as produced by an agent, before the
orchestrator stamps it with the producing phase ordinal. -/
structure ArtifactOut where
  name : String
  kind : ArtifactKind
  location : String
  deriving DecidableEq, Repr

/-- Modelled from the spec: result status (success, failure, partial),
spec section 3. -/
inductive Status
  | success
  | failure
  | partialResult
  deriving DecidableEq, Repr

/-- Modelled from the spec: the Result an agent returns for a task,
spec section 3. -/
structure Result where
  status : Status
  artifacts : List ArtifactOut
  summary : String
  deriving DecidableEq, Repr

/-- Modelled from the spec: registry error kinds, spec section 7. -/
inductive RegistryError
  | duplicateKey
  | notFound
  deriving DecidableEq, Repr

/-! ### Artifact Registry, modelled from the spec (section 4.5) -/

/-- Modelled from the spec: the Artifact Registry, a process-wide record of
produced outputs keyed by logical name (spec sections 2 and 4.5). -/
abbrev Registry := List Artifact

/-- Modelled from the spec: register an artifact under its logical name.
Fails with DuplicateKeyError if the key is already present with a different
producing-phase id (spec section 4.5); re-registration by the same phase
creates a new version (spec section 3). -/
def register (reg : Registry) (a : Artifact) : Except RegistryError Registry :=
  if ∃ b ∈ reg, b.name = a.name ∧ b.producingPhase ≠ a.producingPhase then
    .error .duplicateKey
  else
    .ok ((reg.filter (fun b => b.name ≠ a.name)) ++ [a])

/-- Modelled from the spec: lookup by key returns the artifact or fails
with NotFoundError (spec section 4.5). -/
def lookup (reg : Registry) (key : String) : Except RegistryError Artifact :=
  match reg.find? (fun b => b.name = key) with
  | some a => .ok a
  | none => .error .notFound

/-- Modelled from the spec: apply a registration, keeping the registry
unchanged when the registration is rejected. -/
def registerStep (reg : Registry) (a : Artifact) : Registry :=
  match register reg a with
  | .ok r => r
  | .error _ => reg

/-- Modelled from the spec: register a list of artifacts in order
(orchestrator step d, spec section 4.4). -/
def registerAll (reg : Registry) (l : List Artifact) : Registry :=
  l.foldl registerStep reg

/-- Number of artifacts in the registry of a given kind produced by a given
phase ordinal; the phase-completion invariant of spec section 3 counts these. -/
def countKind (reg : Registry) (ord : Nat) (k : ArtifactKind) : Nat :=
  reg.countP (fun a => a.producingPhase = ord && a.kind = k)

/-! ### Registry lemmas -/

theorem register_ok_lookup (reg : Registry) (a : Artifact) (reg' : Registry)
    (h : register reg a = .ok reg') : lookup reg' a.name = .ok a := by
  unfold register at h
  split at h
  · exact absurd h (by simp)
  · have h' : (reg.filter (fun b => b.name ≠ a.name)) ++ [a] = reg' := by
      simpa using h
    subst h'
    unfold lookup
    rw [List.find?_append]
    have hnone : (reg.filter (fun b => decide (b.name ≠ a.name))).find?
        (fun b => decide (b.name = a.name)) = none := by
      apply List.find?_eq_none.mpr
      intro x hx
      have := List.of_mem_filter hx
      simp at this ⊢
      exact this
    rw [hnone]
    simp [List.find?]

theorem register_duplicate (reg : Registry) (a b : Artifact)
    (hb : b ∈ reg) (hname : b.name = a.name)
    (hphase : b.producingPhase ≠ a.producingPhase) :
    register reg a = .error .duplicateKey := by
  unfold register
  rw [if_pos ⟨b, hb, hname, hphase⟩]

theorem lookup_absent (reg : Registry) (key : String)
    (h : ∀ b ∈ reg, b.name ≠ key) : lookup reg key = .error .notFound := by
  unfold lookup
  have : reg.find? (fun b => decide (b.name = key)) = none := by
    apply List.find?_eq_none.mpr
    intro x hx
    simp
    exact h x hx
  rw [this]

/-! ### Phases and the orchestrator, modelled from the spec (sections 4.3, 4.4)

Modelled from the spec: the Orchestrator (execute, per-phase single retry,
phase-completion invariant) is described in spec section 4.4 but exists in
the source only as the team leader prompt of src/app_advanced.py lines
440 to 511 (mandatory phase sequence; rule 4: if an agent fails, retry once). -/

/-- Modelled from the spec: orchestration error kinds, spec section 7. -/
inductive OrchError
  | phaseFailed (ordinal : Nat)
  deriving DecidableEq, Repr

/-- Modelled from the spec: one phase of the Phase Plan with its assigned
agent and the artifact kinds (with counts) it must produce to count as
complete (spec section 3). The ordinal is the position in the plan. -/
structure PhaseSpec where
  agentId : String
  taskTemplate : String
  requiredKinds : List (ArtifactKind × Nat)
  deriving DecidableEq, Repr

/-- Modelled from the spec: stamp an agent-produced artifact with the
producing phase ordinal before registration (spec section 4.4 step d). -/
def stamp (ord : Nat) (o : ArtifactOut) : Artifact :=
  ⟨o.name, o.kind, o.location, ord⟩

/-- Phase-completion check of spec section 3: every required artifact kind
is present in the registry with the declared count and producing-phase id
equal to the phase ordinal. -/
def phaseCompleteB (reg : Registry) (ord : Nat) (req : List (ArtifactKind × Nat)) : Bool :=
  req.all (fun p => countKind reg ord p.1 = p.2)

/-- Propositional form of the phase-completion invariant. -/
def phaseComplete (reg : Registry) (ord : Nat) (req : List (ArtifactKind × Nat)) : Prop :=
  phaseCompleteB reg ord req = true

instance (reg : Registry) (ord : Nat) (req : List (ArtifactKind × Nat)) :
    Decidable (phaseComplete reg ord req) := by
  unfold phaseComplete
  infer_instance

/-- Modelled from the spec: a single attempt of a phase (spec section 4.4
steps b to d). A failed result is not registered; otherwise the artifacts
are registered and the phase-completion invariant is checked. The attempt
commits only when the invariant holds. -/
def attemptPhase (reg : Registry) (ord : Nat) (p : PhaseSpec) (res : Result) :
    Option Registry :=
  if res.status = .failure then none
  else
    let reg' := registerAll reg (res.artifacts.map (stamp ord))
    if phaseCompleteB reg' ord p.requiredKinds then some reg' else none

/-- Modelled from the spec: execute one phase with at most one retry (spec
section 4.4 step c; src/app_advanced.py line 508, rule 4: if an agent
fails, retry once). The agent behaviour is an oracle from attempt index to
Result. Returns the outcome together with the number of attempts made. -/
def execPhase (beh : Nat → Result) (reg : Registry) (ord : Nat) (p : PhaseSpec) :
    Except OrchError (Registry × String) × Nat :=
  match attemptPhase reg ord p (beh 0) with
  | some reg' => (.ok (reg', (beh 0).summary), 1)
  | none =>
    match attemptPhase reg ord p (beh 1) with
    | some reg' => (.ok (reg', (beh 1).summary), 2)
    | none => (.error (.phaseFailed ord), 2)

/-- Modelled from the spec: prepend the summary of a completed phase to the
outcome of the rest of the run. -/
def consSummary (s : String) :
    Registry × Except OrchError (List String) → Registry × Except OrchError (List String)
  | (regF, .ok sums) => (regF, .ok (s :: sums))
  | (regF, .error e) => (regF, .error e)

/-- Modelled from the spec: sequential execution of the remaining plan from
phase index i (spec section 4.4 step 1). The behaviour oracle maps phase
index and attempt index to the agent Result. Always returns the registry
reached, so that artifacts of completed phases stay available when a later
phase fails (spec section 4.4 failure semantics). -/
def executeFrom (beh : Nat → Nat → Result) (i : Nat) (reg : Registry) :
    List PhaseSpec → Registry × Except OrchError (List String)
  | [] => (reg, .ok [])
  | p :: ps =>
    match (execPhase (beh i) reg i p).1 with
    | .ok (reg', s) => consSummary s (executeFrom beh (i + 1) reg' ps)
    | .error e => (reg, .error e)

/-- Modelled from the spec: the final summary concatenates the phase
summaries and lists every artifact logical name and location (spec
section 4.4 step 2). -/
structure FinalSummary where
  summaries : List String
  artifactList : List (String × String)
  deriving DecidableEq, Repr

/-- Modelled from the spec: execute(plan, initial registry). Returns the
registry reached together with either a FinalSummary or an OrchError. -/
def execute (beh : Nat → Nat → Result) (plan : List PhaseSpec) :
    Registry × Except OrchError FinalSummary :=
  match executeFrom beh 0 [] plan with
  | (regF, .ok sums) => (regF, .ok ⟨sums, regF.map (fun a => (a.name, a.location))⟩)
  | (regF, .error e) => (regF, .error e)

/-! ### Count preservation lemmas -/

theorem countKind_registerStep_ne (reg : Registry) (a : Artifact) (ord : Nat)
    (k : ArtifactKind) (h : a.producingPhase ≠ ord) :
    countKind (registerStep reg a) ord k = countKind reg ord k := by
  by_cases hc : ∃ b ∈ reg, b.name = a.name ∧ b.producingPhase ≠ a.producingPhase
  · unfold registerStep register
    rw [if_pos hc]
  · have hreg : registerStep reg a = (reg.filter (fun b => b.name ≠ a.name)) ++ [a] := by
      unfold registerStep register
      rw [if_neg hc]
    rw [hreg]
    unfold countKind
    rw [List.countP_append, List.countP_filter, List.countP_singleton]
    rw [if_neg (by simp [h])]
    rw [Nat.add_zero]
    apply List.countP_congr
    intro b hbmem
    constructor
    · intro hb
      simp at hb ⊢
      exact hb.1
    · intro hb
      simp at hb ⊢
      refine ⟨hb, ?_⟩
      intro hn
      exact absurd ⟨b, hbmem, hn, by rw [hb.1]; exact fun he => h he.symm⟩ hc

theorem countKind_registerAll_ne (l : List ArtifactOut) (ord' : Nat) :
    ∀ (reg : Registry) (ord : Nat) (k : ArtifactKind), ord' ≠ ord →
    countKind (registerAll reg (l.map (stamp ord'))) ord k = countKind reg ord k := by
  induction l with
  | nil => intro reg ord k _; rfl
  | cons a t ih =>
    intro reg ord k h
    show countKind (registerAll (registerStep reg (stamp ord' a)) (t.map (stamp ord'))) ord k
        = countKind reg ord k
    rw [ih (registerStep reg (stamp ord' a)) ord k h]
    exact countKind_registerStep_ne reg (stamp ord' a) ord k h

theorem mem_registerStep (reg : Registry) (b x : Artifact) (h : x ∈ registerStep reg b) :
    x ∈ reg ∨ x = b := by
  by_cases hc : ∃ c ∈ reg, c.name = b.name ∧ c.producingPhase ≠ b.producingPhase
  · unfold registerStep register at h
    rw [if_pos hc] at h
    exact .inl h
  · unfold registerStep register at h
    rw [if_neg hc] at h
    rcases List.mem_append.mp h with h1 | h2
    · exact .inl (List.mem_of_mem_filter h1)
    · simp at h2
      exact .inr h2

theorem mem_registerAll (l : List Artifact) :
    ∀ (reg : Registry) (x : Artifact), x ∈ registerAll reg l → x ∈ reg ∨ x ∈ l := by
  induction l with
  | nil => intro reg x h; exact .inl h
  | cons a t ih =>
    intro reg x h
    rcases ih (registerStep reg a) x h with h1 | h2
    · rcases mem_registerStep reg a x h1 with h3 | h4
      · exact .inl h3
      · exact .inr (by simp [h4])
    · exact .inr (List.mem_cons_of_mem a h2)

theorem phaseCompleteB_congr (reg₁ reg₂ : Registry) (ord : Nat)
    (req : List (ArtifactKind × Nat))
    (h : ∀ k, countKind reg₁ ord k = countKind reg₂ ord k) :
    phaseCompleteB reg₁ ord req = phaseCompleteB reg₂ ord req := by
  unfold phaseCompleteB
  induction req with
  | nil => rfl
  | cons a t ih => simp [List.all_cons, ih, h a.1]

theorem attemptPhase_some (reg : Registry) (ord : Nat) (p : PhaseSpec) (res : Result)
    (reg' : Registry) (h : attemptPhase reg ord p res = some reg') :
    reg' = registerAll reg (res.artifacts.map (stamp ord)) ∧
    phaseComplete reg' ord p.requiredKinds := by
  unfold attemptPhase at h
  split at h
  · exact absurd h (by simp)
  · dsimp only at h
    split at h
    · rename_i hcomp
      injection h with h2
      subst h2
      exact ⟨rfl, hcomp⟩
    · exact absurd h (by simp)

theorem execPhase_attempts_le (beh : Nat → Result) (reg : Registry) (ord : Nat)
    (p : PhaseSpec) : (execPhase beh reg ord p).2 ≤ 2 := by
  unfold execPhase
  split
  · simp
  · split
    · simp
    · simp

theorem execPhase_agree (beh beh' : Nat → Result) (reg : Registry) (ord : Nat)
    (p : PhaseSpec) (h0 : beh' 0 = beh 0) (h1 : beh' 1 = beh 1) :
    execPhase beh' reg ord p = execPhase beh reg ord p := by
  unfold execPhase
  rw [h0, h1]

theorem execPhase_fail (beh : Nat → Result) (reg : Registry) (ord : Nat) (p : PhaseSpec)
    (h0 : attemptPhase reg ord p (beh 0) = none)
    (h1 : attemptPhase reg ord p (beh 1) = none) :
    execPhase beh reg ord p = (.error (.phaseFailed ord), 2) := by
  simp [execPhase, h0, h1]

theorem execPhase_ok (beh : Nat → Result) (reg : Registry) (ord : Nat) (p : PhaseSpec)
    (reg' : Registry) (s : String) (h : (execPhase beh reg ord p).1 = .ok (reg', s)) :
    phaseComplete reg' ord p.requiredKinds ∧
    (∀ j k, j ≠ ord → countKind reg' j k = countKind reg j k) ∧
    (∀ a ∈ reg', a ∈ reg ∨ a.producingPhase = ord) := by
  have main : ∀ res rr, attemptPhase reg ord p res = some rr →
      phaseComplete rr ord p.requiredKinds ∧
      (∀ j k, j ≠ ord → countKind rr j k = countKind reg j k) ∧
      (∀ a ∈ rr, a ∈ reg ∨ a.producingPhase = ord) := by
    intro res rr hres
    obtain ⟨heq, hcomp⟩ := attemptPhase_some reg ord p res rr hres
    refine ⟨hcomp, ?_, ?_⟩
    · intro j k hj
      rw [heq]
      exact countKind_registerAll_ne res.artifacts ord reg j k (Ne.symm hj)
    · intro a hax
      rw [heq] at hax
      rcases mem_registerAll _ reg a hax with h1 | h2
      · exact .inl h1
      · right
        rcases List.mem_map.mp h2 with ⟨o, _, ho⟩
        rw [← ho]
        rfl
  unfold execPhase at h
  cases ha : attemptPhase reg ord p (beh 0) with
  | some r0 =>
    rw [ha] at h
    simp at h
    rw [← h.1]
    exact main (beh 0) r0 ha
  | none =>
    rw [ha] at h
    cases hb : attemptPhase reg ord p (beh 1) with
    | some r1 =>
      rw [hb] at h
      simp at h
      rw [← h.1]
      exact main (beh 1) r1 hb
    | none =>
      rw [hb] at h
      simp at h

theorem execPhase_err (beh : Nat → Result) (reg : Registry) (ord : Nat) (p : PhaseSpec)
    (e : OrchError) (h : (execPhase beh reg ord p).1 = .error e) :
    e = .phaseFailed ord := by
  unfold execPhase at h
  cases ha : attemptPhase reg ord p (beh 0) with
  | some r0 =>
    rw [ha] at h
    simp at h
  | none =>
    rw [ha] at h
    cases hb : attemptPhase reg ord p (beh 1) with
    | some r1 =>
      rw [hb] at h
      simp at h
    | none =>
      rw [hb] at h
      simp at h
      exact h.symm

theorem executeFrom_ok (plan : List PhaseSpec) :
    ∀ (beh : Nat → Nat → Result) (i : Nat) (reg regF : Registry) (sums : List String),
    executeFrom beh i reg plan = (regF, .ok sums) →
    (∀ j k, j < i → countKind regF j k = countKind reg j k) ∧
    (∀ m q, plan[m]? = some q → phaseComplete regF (i + m) q.requiredKinds) := by
  induction plan with
  | nil =>
    intro beh i reg regF sums h
    unfold executeFrom at h
    simp at h
    constructor
    · intro j k _
      rw [h.1]
    · intro m q hq
      simp at hq
  | cons p ps ih =>
    intro beh i reg regF sums h
    unfold executeFrom at h
    cases he : (execPhase (beh i) reg i p).1 with
    | error e =>
      rw [he] at h
      simp at h
    | ok rs =>
      obtain ⟨reg', s⟩ := rs
      rw [he] at h
      dsimp only at h
      cases hrec : executeFrom beh (i + 1) reg' ps with
      | mk regR r' =>
        cases r' with
        | ok sums' =>
          rw [hrec] at h
          unfold consSummary at h
          simp at h
          obtain ⟨h1, _⟩ := h
          subst h1
          obtain ⟨hc, hpres, _⟩ := execPhase_ok (beh i) reg i p reg' s he
          obtain ⟨ihp, ihc⟩ := ih beh (i + 1) reg' regR sums' hrec
          constructor
          · intro j k hj
            rw [ihp j k (by omega)]
            exact hpres j k (by omega)
          · intro m q hq
            cases m with
            | zero =>
              simp at hq
              subst hq
              unfold phaseComplete at hc ⊢
              rw [Nat.add_zero]
              rw [phaseCompleteB_congr regR reg' i p.requiredKinds
                (fun k => ihp i k (by omega))]
              exact hc
            | succ m' =>
              have hstep := ihc m' q (by simpa using hq)
              have harith : i + 1 + m' = i + (m' + 1) := by omega
              rw [harith] at hstep
              exact hstep
        | error e =>
          rw [hrec] at h
          unfold consSummary at h
          simp at h

theorem executeFrom_err (plan : List PhaseSpec) :
    ∀ (beh : Nat → Nat → Result) (i : Nat) (reg regF : Registry) (e : OrchError),
    executeFrom beh i reg plan = (regF, .error e) →
    ∃ m, m < plan.length ∧ e = .phaseFailed (i + m) ∧
      (∀ j k, j < i → countKind regF j k = countKind reg j k) ∧
      (∀ l q, l < m → plan[l]? = some q → phaseComplete regF (i + l) q.requiredKinds) ∧
      ((∀ a ∈ reg, a.producingPhase < i) → ∀ a ∈ regF, a.producingPhase < i + m) := by
  induction plan with
  | nil =>
    intro beh i reg regF e h
    unfold executeFrom at h
    simp at h
  | cons p ps ih =>
    intro beh i reg regF e h
    unfold executeFrom at h
    cases he : (execPhase (beh i) reg i p).1 with
    | error e' =>
      rw [he] at h
      simp at h
      obtain ⟨h1, h2⟩ := h
      subst h1
      refine ⟨0, by simp, ?_, ?_, ?_, ?_⟩
      · rw [Nat.add_zero]
        rw [← h2]
        exact execPhase_err (beh i) reg i p e' he
      · intro j k _
        rfl
      · intro l q hl
        omega
      · intro hfresh a ha
        have := hfresh a ha
        omega
    | ok rs =>
      obtain ⟨reg', s⟩ := rs
      rw [he] at h
      dsimp only at h
      cases hrec : executeFrom beh (i + 1) reg' ps with
      | mk regR r' =>
        cases r' with
        | ok sums' =>
          rw [hrec] at h
          unfold consSummary at h
          simp at h
        | error e'' =>
          rw [hrec] at h
          unfold consSummary at h
          simp at h
          obtain ⟨h1, h2⟩ := h
          subst h1
          subst h2
          obtain ⟨hc, hpres, hmem⟩ := execPhase_ok (beh i) reg i p reg' s he
          obtain ⟨m', hm', hefi, ihp, ihc, ihf⟩ := ih beh (i + 1) reg' regR e'' hrec
          refine ⟨m' + 1, by simpa using hm', ?_, ?_, ?_, ?_⟩
          · rw [hefi]
            congr 1
            omega
          · intro j k hj
            rw [ihp j k (by omega)]
            exact hpres j k (by omega)
          · intro l q hl hq
            cases l with
            | zero =>
              simp at hq
              subst hq
              unfold phaseComplete at hc ⊢
              rw [Nat.add_zero]
              rw [phaseCompleteB_congr regR reg' i p.requiredKinds
                (fun k => ihp i k (by omega))]
              exact hc
            | succ l' =>
              have hstep := ihc l' q (by omega) (by simpa using hq)
              have harith : i + 1 + l' = i + (l' + 1) := by omega
              rw [harith] at hstep
              exact hstep
          · intro hfresh a ha
            have hfresh' : ∀ b ∈ reg', b.producingPhase < i + 1 := by
              intro b hb
              rcases hmem b hb with h1 | h2
              · have := hfresh b h1
                omega
              · omega
            have := ihf hfresh' a ha
            omega

theorem executeFrom_indep (plan : List PhaseSpec) :
    ∀ (beh beh' : Nat → Nat → Result) (i : Nat) (reg regF : Registry) (fi : Nat),
    executeFrom beh i reg plan = (regF, .error (.phaseFailed fi)) →
    (∀ j, j ≤ fi → beh' j = beh j) →
    executeFrom beh' i reg plan = (regF, .error (.phaseFailed fi)) := by
  induction plan with
  | nil =>
    intro beh beh' i reg regF fi h _
    unfold executeFrom at h
    simp at h
  | cons p ps ih =>
    intro beh beh' i reg regF fi h hagree
    obtain ⟨m, _, hefi, _⟩ := executeFrom_err (p :: ps) beh i reg regF (.phaseFailed fi) h
    have hfi : fi = i + m := by
      injection hefi
    have hile : i ≤ fi := by omega
    have hbi : beh' i = beh i := hagree i hile
    unfold executeFrom at h ⊢
    rw [hbi]
    cases he : (execPhase (beh i) reg i p).1 with
    | error e' =>
      rw [he] at h
      exact h
    | ok rs =>
      obtain ⟨reg', s⟩ := rs
      rw [he] at h
      dsimp only at h ⊢
      cases hrec : executeFrom beh (i + 1) reg' ps with
      | mk regR r' =>
        cases r' with
        | ok sums' =>
          rw [hrec] at h
          unfold consSummary at h
          simp at h
        | error e'' =>
          rw [hrec] at h
          unfold consSummary at h
          simp at h
          obtain ⟨h1, h2⟩ := h
          have hrec' : executeFrom beh (i + 1) reg' ps = (regF, .error (.phaseFailed fi)) := by
            rw [hrec, h1, h2]
          have hgoal := ih beh beh' (i + 1) reg' regF fi hrec' hagree
          rw [hgoal]
          unfold consSummary
          rfl

/-! ### Agent execution loop, modelled from the spec (section 4.2) -/

/-- Modelled from the spec: capability error kinds, spec section 4.1. -/
inductive CapabilityError
  | notFound
  | invalidInput
  | executionFailed
  deriving DecidableEq, Repr

/-- Modelled from the spec: the agent capability-selection loop (spec
section 4.2). On each iteration the agent either judges the task satisfied
and stops, or performs one step that may produce artifacts. When the
iteration cap is exhausted the loop returns a partial Result carrying all
artifacts produced so far; it never raises. The judgement and step
functions stand in for the model-driven selection the repository delegates
to an LLM. -/
def runAgent {σ : Type} (satisfied : σ → Bool) (step : σ → σ × List ArtifactOut) :
    Nat → σ → List ArtifactOut → Result
  | 0, _, acc => ⟨.partialResult, acc, "iteration cap reached"⟩
  | n + 1, s, acc =>
    if satisfied s then ⟨.success, acc, "task satisfied"⟩
    else runAgent satisfied step n (step s).1 (acc ++ (step s).2)

/-- Iterated loop state after k non-satisfied steps. -/
def iterState {σ : Type} (step : σ → σ × List ArtifactOut) : Nat → σ → σ
  | 0, s => s
  | k + 1, s => iterState step k (step s).1

/-- Artifacts produced by the first k steps of the loop. -/
def producedUpTo {σ : Type} (step : σ → σ × List ArtifactOut) : Nat → σ → List ArtifactOut
  | 0, _ => []
  | k + 1, s => (step s).2 ++ producedUpTo step k (step s).1

/-! ### Capability restriction, modelled from the spec (section 4.2)

The permitted capability sets themselves are configuration from
src/app_advanced.py (each agent's tools list). -/

/-- Modelled from the spec: an agent bound to a set of permitted
capability names (spec section 3). -/
structure AgentSpec where
  id : String
  permitted : List String
  deriving DecidableEq, Repr

/-- Modelled from the spec: a task, free text plus the capability names the
task requests (spec section 3). -/
structure Task where
  text : String
  actions : List String
  deriving DecidableEq, Repr

/-- The statistical agent of src/app_advanced.py lines 183 to 219: its
permitted capabilities are PandasTools and FileTools only. -/
def statisticalAgent : AgentSpec := ⟨"statistical-agent", statisticalAgentTools⟩

/-- Whether the task requests an action outside the permitted set. -/
def outsideRequest (ag : AgentSpec) (t : Task) : Bool :=
  t.actions.any (fun a => !(decide (a ∈ ag.permitted)))

/-- The rejection Result an agent returns for an out-of-subset request. -/
def rejectedResult : Result :=
  ⟨.failure, [], "InvalidInput: requested capability outside permitted set"⟩

/-- Modelled from the spec: run(task) fails fast with an InvalidInput
rejection when the task requests an action outside the permitted set (spec
section 4.2); otherwise the loop result is returned. -/
def runGuarded (ag : AgentSpec) (t : Task) (loopRes : Result) : Result :=
  if outsideRequest ag t then rejectedResult else loopRes

/-! ### File-write capability, modelled from the spec (section 6) -/

/-- Modelled from the spec: resolve a relative path given as segments,
tracking the position below the base directory. A parent segment at the
top means the path escapes the base directory and resolution fails
(spec section 6, file-write capability). -/
def resolveUnder (acc : List String) : List String → Option (List String)
  | [] => some acc
  | seg :: rest =>
    if seg = ".." then
      match acc with
      | [] => none
      | _ => resolveUnder acc.dropLast rest
    else if seg = "." ∨ seg = "" then resolveUnder acc rest
    else resolveUnder (acc ++ [seg]) rest

/-- A filesystem modelled as a list of (absolute path segments, content). -/
abbrev FS := List (List String × String)

/-- Modelled from the spec: the file-write capability. Given a relative
path and text content, persist the content under the configured base
directory; fails if the resolved path escapes the base directory
(spec section 6; configured in src/app_advanced.py lines 418 to 421 as
FileTools with base_dir set to the project directory). -/
def writeFile (fs : FS) (base : List String) (rel : List String) (content : String) :
    Except CapabilityError (FS × List String) :=
  match resolveUnder [] rel with
  | none => .error .invalidInput
  | some p => .ok ((base ++ p, content) :: fs, base ++ p)

/-! ### Startup CSV validation, from src/app_advanced.py lines 61 to 77 -/

/-- The CSV validation block at src/app_advanced.py lines 61 to 77: when no
CSV files are found it logs warnings and sets the list to empty; it has no
raising branch, so the embedding always returns ok. Returns the log lines
and the resulting csv file list. -/
def csvStartup (found : List String) : Except String (List String × List String) :=
  if found.isEmpty then
    .ok (["No CSV files found in data directory",
          "Please add your CSV files to the data folder",
          "System will still start and wait for data files"], [])
  else
    .ok (["Found CSV file(s)"], found)

/-- The discovery agent tool construction at src/app_advanced.py line 114:
CsvTools(csvs=csv_files) if csv_files else CsvTools(csvs=[]). -/
def discoveryAgentCsvs (csvs : List String) : List String :=
  if csvs.isEmpty then [] else csvs

/-! ### Run output targets, from src/app_advanced.py -/

/-- An input to a pipeline run: the CSV data present and the date of the
run. The instruction strings of src/app_advanced.py are built at module
load and mention neither. -/
structure RunInput where
  csvFiles : List String
  runDate : Nat
  deriving DecidableEq, Repr

/-- The output file paths a run targets: the five plot paths of the
visualization instructions and the report path of the report instructions.
They are string literals in src/app_advanced.py (lines 243 to 283 and 403),
independent of the run input. -/
def runOutputTargets (inp : RunInput) : List String :=
  plotPaths ++ [reportPath]

/-! ### The configured phase plan (src/app_advanced.py lines 446 to 477)

Required artifact kinds per phase are those of spec section 3; the
five-image requirement of the visualization phase is configuration from
src/app_advanced.py lines 232 and 467. -/

/-- The visualization phase: its completion requires exactly five image
artifacts (src/app_advanced.py lines 465 to 469). -/
def vizPhase : PhaseSpec :=
  ⟨"visualization-agent", "PHASE 4: VISUALIZATION",
   [(ArtifactKind.imageFile, vizRequiredImageCount)]⟩

/-- The five-phase plan of the team leader instructions,
src/app_advanced.py lines 446 to 477. -/
def phasePlan : List PhaseSpec :=
  [⟨"data-discovery-agent", "PHASE 1: DISCOVERY", [(ArtifactKind.metadataRecord, 1)]⟩,
   ⟨"data-analysis-agent", "PHASE 2: DATA LOADING AND ANALYSIS",
    [(ArtifactKind.dataframeHandle, 1)]⟩,
   ⟨"statistical-agent", "PHASE 3: STATISTICAL ANALYSIS",
    [(ArtifactKind.metadataRecord, 1)]⟩,
   vizPhase,
   ⟨"report-agent", "PHASE 5: REPORT GENERATION", [(ArtifactKind.reportFile, 1)]⟩]

/-! ### Claim theorems -/

/-- Claim C1: for every valid Phase Plan, execute either returns a
FinalSummary referencing every required artifact declared by every phase
(every phase satisfies its completion invariant in the final registry and
every registered artifact is listed in the summary), or fails with an
OrchestrationError identifying the failing phase; it never returns a
success result while the required artifacts of some phase are missing. -/
theorem execute_complete_or_failing_phase (beh : Nat → Nat → Result)
    (plan : List PhaseSpec) (regF : Registry) :
    (∀ fs : FinalSummary, execute beh plan = (regF, .ok fs) →
      (∀ m (q : PhaseSpec), plan[m]? = some q → phaseComplete regF m q.requiredKinds) ∧
      (∀ a ∈ regF, (a.name, a.location) ∈ fs.artifactList)) ∧
    (∀ fi : Nat, execute beh plan = (regF, .error (.phaseFailed fi)) → fi < plan.length) := by
  unfold execute
  cases hr : executeFrom beh 0 [] plan with
  | mk regR r =>
    cases r with
    | ok sums =>
      dsimp only
      constructor
      · intro fs heq
        simp at heq
        obtain ⟨h1, h2⟩ := heq
        subst h1
        obtain ⟨_, hcomp⟩ := executeFrom_ok plan beh 0 [] regR sums hr
        constructor
        · intro m q hq
          have hm := hcomp m q hq
          rwa [Nat.zero_add] at hm
        · intro a ha
          rw [← h2]
          exact List.mem_map_of_mem _ ha
      · intro fi heq
        simp at heq
    | error e =>
      dsimp only
      constructor
      · intro fs heq
        simp at heq
      · intro fi heq
        simp at heq
        obtain ⟨h1, h2⟩ := heq
        obtain ⟨m, hm, hefi, _⟩ := executeFrom_err plan beh 0 [] regR e hr
        rw [h2] at hefi
        injection hefi with h3
        omega

/-- Claim C2: each phase is attempted at most twice in total (the initial
attempt plus at most one retry with the same task); the outcome depends
only on the first two attempt results, so a third attempt never occurs;
after a failed retry the orchestrator raises PhaseFailed naming the phase
and the run halts with no later phase running. -/
theorem phase_attempted_at_most_twice (beh beh' : Nat → Result) (reg : Registry)
    (ord : Nat) (p : PhaseSpec) :
    (execPhase beh reg ord p).2 ≤ 2 ∧
    (beh' 0 = beh 0 → beh' 1 = beh 1 →
      execPhase beh' reg ord p = execPhase beh reg ord p) ∧
    (attemptPhase reg ord p (beh 0) = none → attemptPhase reg ord p (beh 1) = none →
      execPhase beh reg ord p = (.error (.phaseFailed ord), 2)) ∧
    (∀ (tbeh : Nat → Nat → Result) (i : Nat) (ps : List PhaseSpec) (e : OrchError),
      (execPhase (tbeh i) reg i p).1 = .error e →
      executeFrom tbeh i reg (p :: ps) = (reg, .error e)) := by
  refine ⟨execPhase_attempts_le beh reg ord p,
    fun h0 h1 => execPhase_agree beh beh' reg ord p h0 h1,
    fun h0 h1 => execPhase_fail beh reg ord p h0 h1,
    ?_⟩
  intro tbeh i ps e he
  unfold executeFrom
  rw [he]

/-- Claim C3: the visualization phase is judged complete if and only if
exactly five image artifacts produced by that phase are registered; a
state with four or fewer registered image artifacts leaves the phase
incomplete, the attempt is rejected, and the orchestrator takes the retry
path (a second attempt) instead of accepting it as best-effort. -/
theorem viz_complete_iff_five_images (reg : Registry) (ord : Nat) (res : Result)
    (beh : Nat → Result) :
    (phaseComplete reg ord vizPhase.requiredKinds ↔
      countKind reg ord .imageFile = 5) ∧
    (countKind (registerAll reg (res.artifacts.map (stamp ord))) ord .imageFile ≤ 4 →
      attemptPhase reg ord vizPhase res = none) ∧
    (attemptPhase reg ord vizPhase (beh 0) = none →
      (execPhase beh reg ord vizPhase).2 = 2) := by
  refine ⟨?_, ?_, ?_⟩
  · unfold phaseComplete phaseCompleteB vizPhase vizRequiredImageCount
    simp
  · intro hle
    unfold attemptPhase
    split
    · rfl
    · dsimp only
      have hb : phaseCompleteB (registerAll reg (res.artifacts.map (stamp ord))) ord
          vizPhase.requiredKinds = false := by
        unfold phaseCompleteB vizPhase vizRequiredImageCount
        simp
        omega
      rw [hb]
      rfl
  · intro h0
    unfold execPhase
    rw [h0]
    dsimp only
    cases hx : attemptPhase reg ord vizPhase (beh 1) with
    | some r1 => rfl
    | none => rfl

/-- Claim C4: when a phase fails after its single retry, the whole run is
reported as failed with the failing phase identified, no later phase in
the plan is executed (the outcome is independent of the behaviour of any
later phase), and the final registry holds only artifacts of the earlier
completed phases, each of which still satisfies its completion
invariant. -/
theorem phase_failure_is_fatal (beh : Nat → Nat → Result) (plan : List PhaseSpec)
    (regF : Registry) (fi : Nat)
    (h : execute beh plan = (regF, .error (.phaseFailed fi))) :
    fi < plan.length ∧
    (∀ l (q : PhaseSpec), l < fi → plan[l]? = some q →
      phaseComplete regF l q.requiredKinds) ∧
    (∀ a ∈ regF, a.producingPhase < fi) ∧
    (∀ beh' : Nat → Nat → Result, (∀ j, j ≤ fi → beh' j = beh j) →
      execute beh' plan = (regF, .error (.phaseFailed fi))) := by
  unfold execute at h
  cases hr : executeFrom beh 0 [] plan with
  | mk regR r =>
    rw [hr] at h
    cases r with
    | ok sums =>
      dsimp only at h
      simp at h
    | error e =>
      dsimp only at h
      simp at h
      obtain ⟨h1, h2⟩ := h
      subst h1
      obtain ⟨m, hm, hefi, _, hcompl, hfresh⟩ :=
        executeFrom_err plan beh 0 [] regR e hr
      rw [h2] at hefi
      injection hefi with h3
      have hfim : fi = m := by omega
      subst hfim
      refine ⟨hm, ?_, ?_, ?_⟩
      · intro l q hl hq
        have := hcompl l q hl hq
        rwa [Nat.zero_add] at this
      · intro a ha
        have := hfresh (by intro b hb; simp at hb) a ha
        omega
      · intro beh' hagree
        have hrw : executeFrom beh 0 [] plan = (regR, .error (.phaseFailed fi)) := by
          rw [hr, h2]
        have hind := executeFrom_indep plan beh beh' 0 [] regR fi hrw hagree
        unfold execute
        rw [hind]

/-- Claim C5: if the capability-selection loop reaches the configured
iteration cap without the task being judged satisfied, run returns a
Result with status partial carrying all artifacts produced so far; cap
exhaustion is never converted into a hard failure. -/
theorem cap_exhaustion_partial {σ : Type} (satisfied : σ → Bool)
    (step : σ → σ × List ArtifactOut) (cap : Nat) (s : σ) (acc : List ArtifactOut)
    (h : ∀ k, k < cap → satisfied (iterState step k s) = false) :
    runAgent satisfied step cap s acc =
      ⟨.partialResult, acc ++ producedUpTo step cap s, "iteration cap reached"⟩ ∧
    (runAgent satisfied step cap s acc).status ≠ .failure := by
  have main : ∀ (n : Nat) (s : σ) (acc : List ArtifactOut),
      (∀ k, k < n → satisfied (iterState step k s) = false) →
      runAgent satisfied step n s acc =
        ⟨.partialResult, acc ++ producedUpTo step n s, "iteration cap reached"⟩ := by
    intro n
    induction n with
    | zero =>
      intro s acc _
      unfold runAgent producedUpTo
      simp
    | succ n ih =>
      intro s acc hk
      have h0 : satisfied s = false := hk 0 (by omega)
      unfold runAgent
      rw [if_neg (by simp [h0])]
      have hk' : ∀ k, k < n → satisfied (iterState step k (step s).1) = false := by
        intro k hkn
        exact hk (k + 1) (by omega)
      rw [ih ((step s).1) (acc ++ (step s).2) hk']
      have hprod : producedUpTo step (n + 1) s =
          (step s).2 ++ producedUpTo step n (step s).1 := rfl
      rw [hprod, List.append_assoc]
  refine ⟨main cap s acc h, ?_⟩
  rw [main cap s acc h]
  simp

/-- Claim C6: an agent restricted to a permitted capability subset rejects
any task requesting an action outside that subset with an explicit
InvalidInput rejection, never a silently skipped no-op; in particular the
statistics role has no chart-rendering capability and any chart request to
it is rejected. -/
theorem outside_capability_rejected (ag : AgentSpec) (t : Task) (r : Result) :
    ((∃ a ∈ t.actions, a ∉ ag.permitted) → runGuarded ag t r = rejectedResult) ∧
    chartCapability ∉ statisticalAgent.permitted ∧
    (chartCapability ∈ t.actions → runGuarded statisticalAgent t r = rejectedResult) := by
  have hrej : ∀ ag' : AgentSpec, (∃ a ∈ t.actions, a ∉ ag'.permitted) →
      runGuarded ag' t r = rejectedResult := by
    intro ag' hex
    obtain ⟨a, hmem, hout⟩ := hex
    have hb : outsideRequest ag' t = true := by
      unfold outsideRequest
      apply List.any_eq_true.mpr
      exact ⟨a, hmem, by simp [hout]⟩
    unfold runGuarded
    rw [if_pos hb]
  refine ⟨hrej ag, by decide, ?_⟩
  intro hc
  exact hrej statisticalAgent ⟨chartCapability, hc, by decide⟩

/-- Claim C7: register followed by lookup with the same key returns the
identical artifact; register with a key already present under a different
producing-phase id fails with DuplicateKeyError; lookup of an absent key
fails with NotFoundError. -/
theorem registry_register_lookup (reg reg' : Registry) (a b : Artifact) (key : String) :
    (register reg a = .ok reg' → lookup reg' a.name = .ok a) ∧
    (b ∈ reg → b.name = a.name → b.producingPhase ≠ a.producingPhase →
      register reg a = .error .duplicateKey) ∧
    ((∀ c ∈ reg, c.name ≠ key) → lookup reg key = .error .notFound) :=
  ⟨register_ok_lookup reg a reg', register_duplicate reg a b, lookup_absent reg key⟩

/-- Claim C8: the file-write capability persists the content when the
resolved path falls under the configured base directory, fails whenever
the path escapes the base directory, and no write outside the base
directory ever occurs. -/
theorem file_write_stays_under_base (fs : FS) (base rel : List String)
    (content : String) :
    (∀ (fs' : FS) (p : List String), writeFile fs base rel content = .ok (fs', p) →
      base <+: p ∧ fs' = (p, content) :: fs ∧ (p, content) ∈ fs') ∧
    (resolveUnder [] rel = none →
      writeFile fs base rel content = .error .invalidInput) ∧
    (∀ (fs' : FS) (p : List String), writeFile fs base rel content = .ok (fs', p) →
      ∀ e ∈ fs', e ∈ fs ∨ base <+: e.1) := by
  have hok : ∀ (fs' : FS) (p : List String),
      writeFile fs base rel content = .ok (fs', p) →
      ∃ q, resolveUnder [] rel = some q ∧ p = base ++ q ∧
        fs' = (base ++ q, content) :: fs := by
    intro fs' p h
    unfold writeFile at h
    cases hres : resolveUnder [] rel with
    | none =>
      rw [hres] at h
      simp at h
    | some q =>
      rw [hres] at h
      simp at h
      exact ⟨q, rfl, h.2.symm, h.1.symm⟩
  refine ⟨?_, ?_, ?_⟩
  · intro fs' p h
    obtain ⟨q, _, hp, hfs⟩ := hok fs' p h
    subst hp
    subst hfs
    exact ⟨⟨q, rfl⟩, rfl, by simp⟩
  · intro hnone
    unfold writeFile
    rw [hnone]
  · intro fs' p h e he
    obtain ⟨q, _, _, hfs⟩ := hok fs' p h
    subst hfs
    rcases List.mem_cons.mp he with h1 | h2
    · right
      rw [h1]
      exact ⟨q, rfl⟩
    · left
      exact h2

/-- Claim C9: at startup, when the data directory contains no CSV files,
the system does not raise or abort: the validation block returns normally
with a nonempty warning log and an empty csv list, it returns normally on
every input, and the discovery agent CsvTools is constructed with the
empty file set. -/
theorem empty_csv_startup_graceful :
    (∃ w, csvStartup [] = .ok (w, []) ∧ w ≠ []) ∧
    (∀ found : List String, ∃ pr, csvStartup found = .ok pr) ∧
    discoveryAgentCsvs [] = [] := by
  refine ⟨⟨["No CSV files found in data directory",
            "Please add your CSV files to the data folder",
            "System will still start and wait for data files"],
          rfl, by simp⟩, ?_, rfl⟩
  intro found
  unfold csvStartup
  split
  · exact ⟨_, rfl⟩
  · exact ⟨_, rfl⟩

/-- Claim C10: the output file paths of the configured pipeline are fixed
constants independent of the input data and of the run date: every run
targets the same report path and the same five plot paths, and the team
leader final-response paths agree with them, so two runs write to
identical locations. -/
theorem output_paths_fixed :
    (∀ i1 i2 : RunInput, runOutputTargets i1 = runOutputTargets i2) ∧
    (∀ inp : RunInput, runOutputTargets inp =
      ["plots/price_distribution.png",
       "plots/fuel_type_comparison.png",
       "plots/price_vs_km_scatter.png",
       "plots/year_boxplot.png",
       "plots/seller_type_bars.png",
       "reports/analysis_report_20260206.md"]) ∧
    leaderFinalResponsePlotPaths = plotPaths ∧
    leaderFinalResponseReportPath = reportPath :=
  ⟨fun _ _ => rfl, fun _ => rfl, rfl, rfl⟩

/-! ### Concrete inputs for the witnesses -/

/-- A behaviour where the discovery agent succeeds on the first attempt
with one metadata artifact, matching the scenario of spec section 8. -/
def behOkW : Nat → Nat → Result :=
  fun _ _ => ⟨.success, [⟨"files", .metadataRecord, "data/"⟩], "found 1 csv"⟩

/-- A one-phase plan consisting of the discovery phase. -/
def planW1 : List PhaseSpec :=
  [⟨"data-discovery-agent", "PHASE 1: DISCOVERY", [(ArtifactKind.metadataRecord, 1)]⟩]

/-- A per-attempt behaviour that always fails. -/
def behFailW : Nat → Result := fun _ => ⟨.failure, [], "agent error"⟩

/-- A per-phase behaviour that always fails. -/
def behFail2W : Nat → Nat → Result := fun _ _ => ⟨.failure, [], "agent error"⟩

/-- The Discovery then Analysis plan of the spec section 8 scenario. -/
def planW4 : List PhaseSpec :=
  [⟨"data-discovery-agent", "PHASE 1: DISCOVERY", [(ArtifactKind.metadataRecord, 1)]⟩,
   ⟨"data-analysis-agent", "PHASE 2: DATA LOADING AND ANALYSIS",
    [(ArtifactKind.dataframeHandle, 1)]⟩]

/-- A visualization result with only four of the five required charts. -/
def fourChartRes : Result :=
  ⟨.success,
   [⟨"price_distribution", .imageFile, "plots/price_distribution.png"⟩,
    ⟨"fuel_type_comparison", .imageFile, "plots/fuel_type_comparison.png"⟩,
    ⟨"price_vs_km_scatter", .imageFile, "plots/price_vs_km_scatter.png"⟩,
    ⟨"year_boxplot", .imageFile, "plots/year_boxplot.png"⟩],
   "4 of 5 charts"⟩

/-- A per-attempt behaviour returning four charts on every attempt. -/
def behFourW : Nat → Result := fun _ => fourChartRes

/-- A dataframe artifact registered by phase 1. -/
def dfArtifact : Artifact := ⟨"main_df", ArtifactKind.dataframeHandle, "memory", 1⟩

/-- A same-name artifact from a different phase. -/
def dfArtifactV2 : Artifact := ⟨"main_df", ArtifactKind.dataframeHandle, "memory2", 2⟩

/-! ### Witnesses -/

/-- Witness for C1: a concrete successful one-phase run where the theorem
yields phase completion and the artifact reference in the summary. -/
theorem execute_complete_or_failing_phase_witness :
    phaseComplete [⟨"files", ArtifactKind.metadataRecord, "data/", 0⟩] 0
      [(ArtifactKind.metadataRecord, 1)] ∧
    ("files", "data/") ∈ (FinalSummary.mk ["found 1 csv"]
      [("files", "data/")]).artifactList := by
  have h := (execute_complete_or_failing_phase behOkW planW1
      [⟨"files", ArtifactKind.metadataRecord, "data/", 0⟩]).1
      ⟨["found 1 csv"], [("files", "data/")]⟩ (by rfl)
  exact ⟨h.1 0 ⟨"data-discovery-agent", "PHASE 1: DISCOVERY",
      [(ArtifactKind.metadataRecord, 1)]⟩ (by decide),
    h.2 ⟨"files", ArtifactKind.metadataRecord, "data/", 0⟩ (by decide)⟩

/-- Witness for C2: a phase whose agent fails on both attempts makes at
most two attempts and ends in PhaseFailed. -/
theorem phase_attempted_at_most_twice_witness :
    (execPhase behFailW [] 0 vizPhase).2 ≤ 2 ∧
    execPhase behFailW [] 0 vizPhase = (.error (.phaseFailed 0), 2) := by
  have h := phase_attempted_at_most_twice behFailW behFailW [] 0 vizPhase
  exact ⟨h.1, h.2.2.1 (by decide) (by decide)⟩

/-- Witness for C3: four charts leave the visualization phase incomplete
and the orchestrator consumes the retry attempt. -/
theorem viz_complete_iff_five_images_witness :
    attemptPhase [] 0 vizPhase fourChartRes = none ∧
    (execPhase behFourW [] 0 vizPhase).2 = 2 := by
  have h := viz_complete_iff_five_images [] 0 fourChartRes behFourW
  exact ⟨h.2.1 (by decide), h.2.2 (h.2.1 (by decide))⟩

/-- Witness for C4: Discovery failing twice in the two-phase plan is fatal
at phase 0 and the outcome ignores the Analysis behaviour. -/
theorem phase_failure_is_fatal_witness :
    (0 : Nat) < planW4.length ∧
    execute behFail2W planW4 = ([], .error (.phaseFailed 0)) := by
  have h := phase_failure_is_fatal behFail2W planW4 [] 0 (by rfl)
  exact ⟨h.1, h.2.2.2 behFail2W (fun _ _ => rfl)⟩

/-- Witness for C5: a never-satisfied loop with cap 3 returns a partial
result with the three artifacts produced. -/
theorem cap_exhaustion_partial_witness :
    runAgent (fun _ : Nat => false)
      (fun n : Nat => (n + 1, [⟨"step", ArtifactKind.metadataRecord, "mem"⟩]))
      3 0 [] =
    ⟨.partialResult,
     [⟨"step", ArtifactKind.metadataRecord, "mem"⟩,
      ⟨"step", ArtifactKind.metadataRecord, "mem"⟩,
      ⟨"step", ArtifactKind.metadataRecord, "mem"⟩],
     "iteration cap reached"⟩ := by
  have h := cap_exhaustion_partial (fun _ : Nat => false)
      (fun n : Nat => (n + 1, [⟨"step", ArtifactKind.metadataRecord, "mem"⟩]))
      3 0 [] (by decide)
  rw [h.1]
  rfl

/-- Witness for C6: a chart-rendering request to the statistical agent is
rejected. -/
theorem outside_capability_rejected_witness :
    runGuarded statisticalAgent ⟨"create five charts", ["VisualizationTools"]⟩
      ⟨.success, [], "ok"⟩ = rejectedResult := by
  have h := outside_capability_rejected statisticalAgent
      ⟨"create five charts", ["VisualizationTools"]⟩ ⟨.success, [], "ok"⟩
  exact h.2.2 (by decide)

/-- Witness for C7: concrete register and lookup runs exercising all three
registry contract clauses. -/
theorem registry_register_lookup_witness :
    lookup [dfArtifact] dfArtifact.name = .ok dfArtifact ∧
    register [dfArtifact] dfArtifactV2 = .error .duplicateKey ∧
    lookup [dfArtifact] "absent_key" = .error .notFound := by
  refine ⟨(registry_register_lookup [] [dfArtifact] dfArtifact dfArtifact "k").1
      (by rfl),
    (registry_register_lookup [dfArtifact] [] dfArtifactV2 dfArtifact "k").2.1
      (by decide) (by decide) (by decide),
    (registry_register_lookup [dfArtifact] [] dfArtifact dfArtifact "absent_key").2.2
      (by decide)⟩

/-- Witness for C8: a write under the base directory lands under the base,
and a parent-escaping path is rejected. -/
theorem file_write_stays_under_base_witness :
    (["workspace"] <+: ["workspace", "reports", "analysis_report_20260206.md"]) ∧
    writeFile [] ["workspace"] ["..", "etc"] "x" = .error .invalidInput := by
  have h1 := (file_write_stays_under_base [] ["workspace"]
      ["reports", "analysis_report_20260206.md"] "report text").1
      [(["workspace", "reports", "analysis_report_20260206.md"], "report text")]
      ["workspace", "reports", "analysis_report_20260206.md"] (by rfl)
  have h2 := (file_write_stays_under_base [] ["workspace"] ["..", "etc"] "x").2.1
      (by decide)
  exact ⟨h1.1, h2⟩

end DSAssistant
